import Mathlib

/-!
Verification of the catalog-consistency scripts of the
`renderx-plugin-components` package against its specification.

The repository ships two Node scripts:

* `scripts/validate-components.js` — `validatePackage` reads
  `json-components/index.json`, walks the components directory, compares the
  declared file list with the discovered one and checks required fields of
  every non-topic component document;
* `tests/react-component.test.js` — `runTests` runs eight checks against the
  example component `react.json` and the index.

Both are shallowly embedded below.  JSON documents are modelled by the
inductive `JSON`; JavaScript property access, truthiness, `typeof`,
`Array.isArray`, `includes` and the test helpers `assert` / `assertEqual` /
`assertExists` / `assertType` are modelled by executable Lean functions that
mirror the JavaScript semantics the scripts actually exercise.  File-system
I/O is abstracted into a `Catalog` value holding what the script would read:
whether the directory and index exist, the parse result of the index, and
the parse results of the discovered component files.
-/

/-- A JSON value.  Numbers are modelled as integers: the scripts only ever use
numbers through truthiness (zero versus non-zero) and `typeof`, so the
double-precision representation is irrelevant.  An object is a list of
key/value pairs; `JSON.parse` output has no duplicate keys. -/
inductive JSON where
  | null
  | bool (b : Bool)
  | num (n : Int)
  | str (s : String)
  | arr (elems : List JSON)
  | obj (fields : List (String × JSON))

/-- JavaScript truthiness of a defined value: `null`, `false`, `0` and the
empty string are falsy; every object and array is truthy. -/
def truthy : JSON → Bool
  | .null => false
  | .bool b => b
  | .num n => n != 0
  | .str s => !(s == "")
  | .arr _ => true
  | .obj _ => true

/-- Truthiness of a possibly-undefined value (`none` models `undefined`). -/
def truthyOpt : Option JSON → Bool
  | none => false
  | some v => truthy v

/-- First binding of a key in an object's field list (parse output has unique
keys, so first and last occurrence coincide). -/
def lookupField : List (String × JSON) → String → Option JSON
  | [], _ => none
  | (k, v) :: rest, key => if k = key then some v else lookupField rest key

/-- JavaScript property access `v[k]` on a non-null value: a key lookup on an
object, `undefined` (i.e. `none`) on any other value.  Access on `null`
throws in JavaScript; callers model that case separately. -/
def jsGet : JSON → String → Option JSON
  | .obj fs, k => lookupField fs k
  | _, _ => none

/-- Whether an object carries a top-level key (regardless of its value). -/
def hasKey (d : JSON) (k : String) : Bool :=
  match d with
  | .obj fs => fs.any fun p => p.1 == k
  | _ => false

/-! ## Validator: `scripts/validate-components.js` -/

/-- One problem the validator can report about a single component file:
either the catch-all `Invalid JSON in file …` message (a `JSON.parse` throw,
or the `TypeError` thrown by property access when the file parses to `null`,
both caught by the same `try`/`catch`), or a missing required field. -/
inductive Issue where
  | invalidJson
  | missingField (field : String)

/-- `componentData.topics || componentData.definitions` — the condition under
which `validatePackage` skips a file as a topic definition.  Note that this is
JavaScript truthiness of the values, not mere presence of the keys. -/
def isTopicDoc (d : JSON) : Bool :=
  truthyOpt (jsGet d "topics") || truthyOpt (jsGet d "definitions")

/-- The required-field errors `validatePackage` reports for one parsed,
non-topic component document, in report order.  Mirrors the nested
truthiness checks of the source: `metadata.type` / `metadata.name` are only
examined when `metadata` itself is truthy, and `ui.template` only when `ui`
is truthy. -/
def structuralIssues (componentData : JSON) : List Issue :=
  (if truthyOpt (jsGet componentData "metadata") then
    (if truthyOpt ((jsGet componentData "metadata").bind fun m => jsGet m "type") then []
     else [Issue.missingField "metadata.type"]) ++
    (if truthyOpt ((jsGet componentData "metadata").bind fun m => jsGet m "name") then []
     else [Issue.missingField "metadata.name"])
   else [Issue.missingField "metadata"]) ++
  (if truthyOpt (jsGet componentData "ui") then
    (if truthyOpt ((jsGet componentData "ui").bind fun u => jsGet u "template") then []
     else [Issue.missingField "ui.template"])
   else [Issue.missingField "ui"]) ++
  (if truthyOpt (jsGet componentData "integration") then []
   else [Issue.missingField "integration"])

/-- The issues the per-file loop of `validatePackage` reports for one file,
given its parse result.  `none` is a `JSON.parse` throw; a file parsing to
bare `null` makes the subsequent `componentData.topics` access throw a
`TypeError`, which the same `catch` turns into the same error message. -/
def fileIssues : Option JSON → List Issue
  | none => [Issue.invalidJson]
  | some .null => [Issue.invalidJson]
  | some d => if isTopicDoc d then [] else structuralIssues d

/-- An error printed by `validatePackage` via `console.error`. -/
inductive VError where
  | dirNotFound
  | indexNotFound
  | indexInvalidJson
  | indexMissingVersion
  | indexComponentsNotArray
  | staleEntries (stale : List JSON)
  | fileIssue (path : String) (issue : Issue)

/-- What `validatePackage` reads from disk: whether `json-components` and
`json-components/index.json` exist, the parse result of the index (`none`
models a `JSON.parse` throw), and the output of the `getAllJsonFiles` walk —
every discovered `*.json` file except `index.json`, as a relative path with
`/` separators, paired with its parse result. -/
structure Catalog where
  dirExists : Bool
  indexExists : Bool
  indexParse : Option JSON
  files : List (String × Option JSON)

/-- The observable outcome of one `validatePackage` run: the process exit
status, the errors printed, and the warnings printed.  The success-path
component count printout is display-only and not modelled. -/
structure RunResult where
  exit : Nat
  errors : List VError
  warnings : List (List String)

/-- `Array.isArray(indexData.components)` together with the array's
elements: `some` exactly when the value is an array. -/
def componentsArr : Option JSON → Option (List JSON)
  | some (.arr xs) => some xs
  | _ => none

/-- The discovered relative paths (`actualFiles` in the source).  The source
sorts this list and the declared list before comparing; the sort only affects
console print order, because both lists are consumed through membership tests
and emptiness checks, so it is not modelled. -/
def actualFiles (files : List (String × Option JSON)) : List String :=
  files.map Prod.fst

/-- Strict equality `entry === file` between a declared-component entry (an
arbitrary JSON value) and a discovered path string: true exactly for the
equal string.  (For non-primitive entries, `===` is reference equality, which
can never hold against a freshly produced path string.) -/
def matchesPath (e : JSON) (p : String) : Bool :=
  match e with
  | .str s => s == p
  | _ => false

/-- `actualFiles.filter(file => !declaredFiles.includes(file))` — discovered
files not declared in the index; they only produce a warning. -/
def missingFromIndex (comps : List JSON) (files : List (String × Option JSON)) : List String :=
  (actualFiles files).filter fun p => !(comps.any fun e => matchesPath e p)

/-- `declaredFiles.filter(file => !actualFiles.includes(file))` — declared
entries with no matching file on disk; they produce an error. -/
def staleInIndex (comps : List JSON) (files : List (String × Option JSON)) : List JSON :=
  comps.filter fun e => !((actualFiles files).any fun p => matchesPath e p)

/-- All per-file errors of the validation loop, in file order. -/
def fileErrors (files : List (String × Option JSON)) : List VError :=
  files.flatMap fun f => (fileIssues f.2).map (VError.fileIssue f.1)

/-- All hard errors of the main stage: stale-entry errors, then per-file
errors. -/
def mainErrors (comps : List JSON) (files : List (String × Option JSON)) : List VError :=
  (if (staleInIndex comps files).isEmpty then [] else [VError.staleEntries (staleInIndex comps files)]) ++
  fileErrors files

/-- The main stage of `validatePackage`, reached once the index has a truthy
`version` and a `components` array: warn about undeclared files, error on
stale entries, validate every discovered file, and exit 1 exactly when some
hard error was reported. -/
def mainStage (comps : List JSON) (files : List (String × Option JSON)) : RunResult :=
  ⟨if (mainErrors comps files).isEmpty then 0 else 1,
   mainErrors comps files,
   if (missingFromIndex comps files).isEmpty then [] else [missingFromIndex comps files]⟩

/-- The whole `validatePackage` run.  Missing directory or index abort with
exit 1 before parsing; an unparseable index aborts with exit 1; a falsy
`version` or a non-array `components` abort with exit 1; otherwise the main
stage decides the outcome. -/
def validatePackage (c : Catalog) : RunResult :=
  if c.dirExists && c.indexExists then
    match c.indexParse with
    | none => ⟨1, [VError.indexInvalidJson], []⟩
    | some indexData =>
      let versionErrs :=
        if truthyOpt (jsGet indexData "version") then [] else [VError.indexMissingVersion]
      match componentsArr (jsGet indexData "components") with
      | none => ⟨1, versionErrs ++ [VError.indexComponentsNotArray], []⟩
      | some xs =>
        if versionErrs.isEmpty then mainStage xs c.files else ⟨1, versionErrs, []⟩
  else
    ⟨1,
     (if c.dirExists then [] else [VError.dirNotFound]) ++
       (if c.indexExists then [] else [VError.indexNotFound]),
     []⟩

/-- The exit status the validator produces once the directory and index
exist and the index parsed to `ix` — a restatement of the tail of
`validatePackage` used to reason about the exit status alone. -/
def indexStageExit (ix : JSON) (files : List (String × Option JSON)) : Nat :=
  if truthyOpt (jsGet ix "version") then
    match componentsArr (jsGet ix "components") with
    | none => 1
    | some xs => (mainStage xs files).exit
  else 1

/-! ## Test suite: `tests/react-component.test.js`

Each of the eight `test(name, fn)` calls is modelled as an `Except Unit Unit`
computation: `Except.error ()` is a thrown assertion (or `TypeError`), caught
per-test by the harness, and `Except.ok ()` is a passing test.  Every check
accesses the loaded document through one top-level property, so each check is
written as that access bound to a closed continuation. -/

/-- Property access `base[k]` where `base` is itself the result of a property
access (so possibly `undefined`): access on `undefined` or `null` throws. -/
def jsAccessO : Option JSON → String → Except Unit (Option JSON)
  | none, _ => .error ()
  | some .null, _ => .error ()
  | some v, k => .ok (jsGet v k)

/-- Property access on the loaded document itself (defined, but possibly
`null`). -/
def topAccess (j : JSON) (k : String) : Except Unit (Option JSON) :=
  jsAccessO (some j) k

/-- `assert(condition, …)`: throws when the condition is falsy. -/
def assertOk (b : Bool) : Except Unit Unit :=
  if b then .ok () else .error ()

/-- `assertExists(value, …)`: throws when the value is `undefined` or
`null`. -/
def assertExists : Option JSON → Except Unit Unit
  | none => .error ()
  | some .null => .error ()
  | some _ => .ok ()

/-- `assertEqual(actual, expected, …)` with a string literal as expected
value: `actual !== expected` throws, and only the identical string passes. -/
def assertEqualStr (v : Option JSON) (s : String) : Except Unit Unit :=
  match v with
  | some (.str t) => if t = s then .ok () else .error ()
  | _ => .error ()

/-- JavaScript `typeof`: `undefined` ↦ "undefined", and `null`, arrays and
objects are all "object". -/
def typeofJS : Option JSON → String
  | none => "undefined"
  | some .null => "object"
  | some (.bool _) => "boolean"
  | some (.num _) => "number"
  | some (.str _) => "string"
  | some (.obj _) => "object"
  | some (.arr _) => "object"

/-- `assertType(value, expectedType, …)`. -/
def assertTypeIs (v : Option JSON) (t : String) : Except Unit Unit :=
  if typeofJS v = t then .ok () else .error ()

/-- `Array.isArray(value)` for a possibly-undefined value. -/
def isArrayJS : Option JSON → Bool
  | some (.arr _) => true
  | _ => false

/-- Substring test `s.includes(sub)` on strings. -/
def strContains (s sub : String) : Bool :=
  s.data.tails.any (sub.data.isPrefixOf ·)

/-- `value.includes(x)` with a string argument: substring test on a string,
`===`-membership on an array, and a thrown `TypeError` on any other receiver
(no `includes` method). -/
def jsIncludes : JSON → String → Except Unit Bool
  | .str t, s => .ok (strContains t s)
  | .arr xs, s => .ok (xs.any fun e => matchesPath e s)
  | _, _ => .error ()

/-- `value.includes(x)` where the receiver comes from a property access and
may be `undefined` or `null` (both throw). -/
def jsIncludesO : Option JSON → String → Except Unit Bool
  | none, _ => .error ()
  | some .null, _ => .error ()
  | some v, s => jsIncludes v s

/-- Test 1, continuation after reading `reactComponent.metadata`. -/
def metadataRest (m : Option JSON) : Except Unit Unit := do
  assertExists m
  assertEqualStr (← jsAccessO m "type") "react"
  assertEqualStr (← jsAccessO m "name") "React"
  assertExists (← jsAccessO m "version")
  assertExists (← jsAccessO m "description")
  let tags ← jsAccessO m "tags"
  assertTypeIs tags "object"
  assertOk (isArrayJS tags)
  assertOk (← jsIncludesO tags "react")

/-- Test 1: `React component has required metadata fields`. -/
def checkMetadataFields (rc : JSON) : Except Unit Unit :=
  topAccess rc "metadata" >>= metadataRest

/-- Test 2, continuation after reading `reactComponent.ui`. -/
def uiRest (u : Option JSON) : Except Unit Unit := do
  assertExists u
  assertExists (← jsAccessO u "template")
  assertExists (← jsAccessO u "styles")
  let icon ← jsAccessO u "icon"
  assertExists icon
  assertEqualStr (← jsAccessO icon "value") "⚛️"
  let tools ← jsAccessO u "tools"
  assertExists tools
  assertOk (truthyOpt (← jsAccessO (← jsAccessO tools "drag") "enabled"))
  assertOk (truthyOpt (← jsAccessO (← jsAccessO tools "resize") "enabled"))

/-- Test 2: `React component has proper UI configuration`. -/
def checkUiConfiguration (rc : JSON) : Except Unit Unit :=
  topAccess rc "ui" >>= uiRest

/-- Test 3, continuation after reading `reactComponent.integration`. -/
def integrationPropsRest (integ : Option JSON) : Except Unit Unit := do
  assertExists integ
  let props ← jsAccessO integ "properties"
  assertExists props
  let schema ← jsAccessO props "schema"
  assertExists schema
  let code ← jsAccessO schema "code"
  assertExists code
  assertEqualStr (← jsAccessO code "type") "string"
  let dflt ← jsAccessO code "default"
  assertExists dflt
  assertOk (← jsIncludesO dflt "export default function")
  let cui ← jsAccessO code "ui"
  assertExists cui
  assertEqualStr (← jsAccessO cui "control") "code"

/-- Test 3: `React component has proper integration configuration`. -/
def checkIntegrationProperties (rc : JSON) : Except Unit Unit :=
  topAccess rc "integration" >>= integrationPropsRest

/-- Test 4, continuation after reading `reactComponent.template`. -/
def templateRest (t : Option JSON) : Except Unit Unit := do
  assertExists t
  let r ← jsAccessO t "render"
  assertExists r
  assertEqualStr (← jsAccessO r "strategy") "react"
  let tr ← jsAccessO t "react"
  assertExists tr
  assertExists (← jsAccessO tr "code")
  let cls ← jsAccessO t "classes"
  assertExists cls
  assertOk (isArrayJS cls)
  assertOk (← jsIncludesO cls "rx-comp")
  assertOk (← jsIncludesO cls "rx-react")

/-- Test 4: `React component has proper template structure for external
plugins`. -/
def checkTemplateStructure (rc : JSON) : Except Unit Unit :=
  topAccess rc "template" >>= templateRest

/-- Test 5, continuation after reading `reactComponent.interactions`. -/
def interactionsRest (inter : Option JSON) : Except Unit Unit := do
  assertExists inter
  let cc ← jsAccessO inter "canvas.component.create"
  assertExists cc
  assertEqualStr (← jsAccessO cc "pluginId") "CanvasComponentPlugin"
  assertEqualStr (← jsAccessO cc "sequenceId") "canvas-component-create-symphony"

/-- Test 5: `React component has proper plugin interactions`. -/
def checkPluginInteractions (rc : JSON) : Except Unit Unit :=
  topAccess rc "interactions" >>= interactionsRest

/-- Test 6, continuation after reading `index.components`. -/
def indexComponentsRest (comps : Option JSON) : Except Unit Unit := do
  assertOk (isArrayJS comps)
  assertOk (← jsIncludesO comps "react.json")

/-- Test 6: `Index file includes React component`. -/
def checkIndexIncludesReact (idx : JSON) : Except Unit Unit :=
  topAccess idx "components" >>= indexComponentsRest

/-- Test 7, continuation after reading `reactComponent.integration`. -/
def canvasRest (integ : Option JSON) : Except Unit Unit := do
  let ci ← jsAccessO integ "canvasIntegration"
  assertExists ci
  assertOk (truthyOpt (← jsAccessO ci "resizable"))
  assertOk (truthyOpt (← jsAccessO ci "draggable"))
  assertOk (truthyOpt (← jsAccessO ci "selectable"))
  assertTypeIs (← jsAccessO ci "defaultWidth") "number"
  assertTypeIs (← jsAccessO ci "defaultHeight") "number"

/-- Test 7: `React component has proper canvas integration`. -/
def checkCanvasIntegration (rc : JSON) : Except Unit Unit :=
  topAccess rc "integration" >>= canvasRest

/-- Test 8, continuation after reading `reactComponent.integration`. -/
def eventsRest (integ : Option JSON) : Except Unit Unit := do
  let ev ← jsAccessO integ "events"
  assertExists ev
  assertExists (← jsAccessO ev "mount")
  assertExists (← jsAccessO ev "unmount")
  assertExists (← jsAccessO ev "error")

/-- Test 8: `React component has proper event definitions`. -/
def checkEventDefinitions (rc : JSON) : Except Unit Unit :=
  topAccess rc "integration" >>= eventsRest

/-- Whether a test body ran to completion without a thrown assertion. -/
def passes : Except Unit Unit → Bool
  | .ok _ => true
  | .error _ => false

/-- The pass/fail outcomes of the eight tests, in source order, for a loaded
component document and index document. -/
def testResults (rc idx : JSON) : List Bool :=
  [passes (checkMetadataFields rc),
   passes (checkUiConfiguration rc),
   passes (checkIntegrationProperties rc),
   passes (checkTemplateStructure rc),
   passes (checkPluginInteractions rc),
   passes (checkIndexIncludesReact idx),
   passes (checkCanvasIntegration rc),
   passes (checkEventDefinitions rc)]

/-- `passedCount` of `runTests`. -/
def passedCount (rc idx : JSON) : Nat :=
  (testResults rc idx).count true

/-- `testCount` of `runTests`. -/
def testCount (rc idx : JSON) : Nat :=
  (testResults rc idx).length

/-- The boolean `runTests` returns: `passedCount === testCount`. -/
def runTests (rc idx : JSON) : Bool :=
  passedCount rc idx == testCount rc idx

/-- The process exit status of the test script once both documents loaded:
`process.exit(success ? 0 : 1)`. -/
def runTestsExit (rc idx : JSON) : Nat :=
  if runTests rc idx then 0 else 1

/-! ## Document mutation and concrete documents -/

/-- Replace the value found under a key path of nested objects, leaving every
other binding untouched; the identity on documents that do not carry the
path's objects.  Used to state what "changing only
`template.render.strategy`" means. -/
def setPath : List String → JSON → JSON → JSON
  | [], v, _ => v
  | k :: ks, v, .obj fs => .obj (fs.map fun p => (p.1, if p.1 = k then setPath ks v p.2 else p.2))
  | _ :: _, _, j => j

/-- Modelled from the spec: the example component document
`json-components/react.json` is data of this repository that is not among
the provided sources, so it is reconstructed here from the spec's
description — `metadata.type = "react"`, `metadata.name = "React"`, the icon
glyph `⚛️`, the plugin identifier `CanvasComponentPlugin`, the sequence
identifier `canvas-component-create-symphony`, CSS classes `rx-comp` and
`rx-react`, a `react` render strategy, and the event names `mount`,
`unmount`, `error` — together with the remaining fields the eight checks
read. -/
def reactExample : JSON :=
  .obj
    [("metadata", .obj
        [("type", .str "react"),
         ("name", .str "React"),
         ("version", .str "1.0.0"),
         ("description", .str "React component wrapper"),
         ("tags", .arr [.str "react", .str "component"])]),
     ("ui", .obj
        [("template", .str "<div class=rx-react></div>"),
         ("styles", .obj [("css", .str "display:block")]),
         ("icon", .obj [("value", .str "⚛️")]),
         ("tools", .obj
            [("drag", .obj [("enabled", .bool true)]),
             ("resize", .obj [("enabled", .bool true)])])]),
     ("integration", .obj
        [("properties", .obj
            [("schema", .obj
                [("code", .obj
                    [("type", .str "string"),
                     ("default", .str "export default function App()"),
                     ("ui", .obj [("control", .str "code")])])])]),
         ("canvasIntegration", .obj
            [("resizable", .bool true),
             ("draggable", .bool true),
             ("selectable", .bool true),
             ("defaultWidth", .num 200),
             ("defaultHeight", .num 150)]),
         ("events", .obj
            [("mount", .str "react:mount"),
             ("unmount", .str "react:unmount"),
             ("error", .str "react:error")])]),
     ("template", .obj
        [("render", .obj [("strategy", .str "react")]),
         ("react", .obj [("code", .str "export default function App()")]),
         ("classes", .arr [.str "rx-comp", .str "rx-react"])]),
     ("interactions", .obj
        [("canvas.component.create", .obj
            [("pluginId", .str "CanvasComponentPlugin"),
             ("sequenceId", .str "canvas-component-create-symphony")])])]

/-- Modelled from the spec: the index document, declaring a `version` and
listing `react.json`. -/
def idxExample : JSON :=
  .obj [("version", .str "1.0.0"), ("components", .arr [.str "react.json"])]

/-! ## Required-field vocabulary for the validator claims -/

/-- The six required fields of a non-topic component document. -/
inductive ReqField where
  | metadata
  | metadataType
  | metadataName
  | ui
  | uiTemplate
  | integration

/-- The dotted name under which the validator reports a field. -/
def fieldName : ReqField → String
  | .metadata => "metadata"
  | .metadataType => "metadata.type"
  | .metadataName => "metadata.name"
  | .ui => "ui"
  | .uiTemplate => "ui.template"
  | .integration => "integration"

/-- The names the validator may report when a field is absent: the field
itself, or — for the nested fields — its parent object field. -/
def coveringNames : ReqField → List String
  | .metadata => ["metadata"]
  | .metadataType => ["metadata.type", "metadata"]
  | .metadataName => ["metadata.name", "metadata"]
  | .ui => ["ui"]
  | .uiTemplate => ["ui.template", "ui"]
  | .integration => ["integration"]

/-- The field is absent from the document: the key path does not resolve to
a value (a missing key anywhere along the path, or a parent that is not an
object). -/
def reqFieldAbsent (d : JSON) : ReqField → Prop
  | .metadata => jsGet d "metadata" = none
  | .metadataType => ((jsGet d "metadata").bind fun m => jsGet m "type") = none
  | .metadataName => ((jsGet d "metadata").bind fun m => jsGet m "name") = none
  | .ui => jsGet d "ui" = none
  | .uiTemplate => ((jsGet d "ui").bind fun u => jsGet u "template") = none
  | .integration => jsGet d "integration" = none

/-- The field is present in the document but bound to a falsy value. -/
def presentFalsy (d : JSON) : ReqField → Prop
  | .metadata => ∃ v, jsGet d "metadata" = some v ∧ truthy v = false
  | .metadataType => ∃ m v, jsGet d "metadata" = some m ∧ jsGet m "type" = some v ∧ truthy v = false
  | .metadataName => ∃ m v, jsGet d "metadata" = some m ∧ jsGet m "name" = some v ∧ truthy v = false
  | .ui => ∃ v, jsGet d "ui" = some v ∧ truthy v = false
  | .uiTemplate => ∃ u v, jsGet d "ui" = some u ∧ jsGet u "template" = some v ∧ truthy v = false
  | .integration => ∃ v, jsGet d "integration" = some v ∧ truthy v = false

/-- Relation between two declared-components values: both absent or both
non-arrays in the same way, or both arrays whose entries are a permutation
of one another. -/
def componentsRel : Option (List JSON) → Option (List JSON) → Prop
  | some xs, some ys => xs.Perm ys
  | a, b => a = b

/-- Two index parse results that agree except that the entries of the
`components` array may be reordered (and whose `version` fields are equally
truthy). -/
def indexEquivUpToPerm : Option JSON → Option JSON → Prop
  | none, none => True
  | some a, some b =>
      truthyOpt (jsGet a "version") = truthyOpt (jsGet b "version") ∧
      componentsRel (componentsArr (jsGet a "components")) (componentsArr (jsGet b "components"))
  | _, _ => False

/-! ## Concrete documents and catalogs used in counterexamples and
witnesses -/

/-- A component document whose `metadata` key is present but falsy (`0`),
so that `metadata.type` and `metadata.name` are absent while `metadata`
itself is not. -/
def cexDoc1 : JSON :=
  .obj [("metadata", .num 0), ("ui", .obj [("template", .bool true)]), ("integration", .bool true)]

/-- A catalog containing only `cexDoc1`, correctly declared. -/
def cexCatalog1 : Catalog :=
  ⟨true, true,
   some (.obj [("version", .str "1.0.0"), ("components", .arr [.str "comp.json"])]),
   [("comp.json", some cexDoc1)]⟩

/-- A document carrying a `topics` key bound to `null` — the key is present
but its value is falsy. -/
def topicNullDoc : JSON :=
  .obj [("topics", JSON.null)]

/-- A catalog containing only `topicNullDoc`, correctly declared. -/
def cexCatalog4 : Catalog :=
  ⟨true, true,
   some (.obj [("version", .str "1.0.0"), ("components", .arr [.str "topics.json"])]),
   [("topics.json", some topicNullDoc)]⟩

/-- A document satisfying the three conditions of the claim about the test
suite — `metadata.type = "react"`, `ui.icon.value = "⚛️"`, and
`template.classes` containing `rx-comp` and `rx-react` — and nothing else. -/
def cexDoc8 : JSON :=
  .obj [("metadata", .obj [("type", .str "react")]),
        ("ui", .obj [("icon", .obj [("value", .str "⚛️")])]),
        ("template", .obj [("classes", .arr [.str "rx-comp", .str "rx-react"])])]

/-- A well-formed component document (all six required fields truthy). -/
def goodDoc : JSON :=
  .obj [("metadata", .obj [("type", .str "button"), ("name", .str "Button")]),
        ("ui", .obj [("template", .str "<button></button>")]),
        ("integration", .obj [("events", .obj [])])]

/-- A document missing `metadata` entirely. -/
def noMetadataDoc : JSON :=
  .obj [("ui", .obj [("template", .str "<div></div>")]), ("integration", .bool true)]

/-- A catalog containing only `noMetadataDoc`, correctly declared. -/
def wCatalogC1 : Catalog :=
  ⟨true, true,
   some (.obj [("version", .str "1.0.0"), ("components", .arr [.str "a.json"])]),
   [("a.json", some noMetadataDoc)]⟩

/-- A catalog whose index declares `ghost.json`, which does not exist on
disk. -/
def wCatalogC2 : Catalog :=
  ⟨true, true,
   some (.obj [("version", .str "1.0.0"),
               ("components", .arr [.str "a.json", .str "ghost.json"])]),
   [("a.json", some goodDoc)]⟩

/-- An otherwise-valid catalog with one extra component file `extra.json`
that the index does not declare. -/
def wCatalogC3 : Catalog :=
  ⟨true, true,
   some (.obj [("version", .str "1.0.0"), ("components", .arr [.str "a.json"])]),
   [("a.json", some goodDoc), ("extra.json", some goodDoc)]⟩

/-- A catalog containing a topic document (truthy `topics` value) that fails
every structural check — which must not matter, since topic documents are
skipped. -/
def wCatalogC4 : Catalog :=
  ⟨true, true,
   some (.obj [("version", .str "1.0.0"), ("components", .arr [.str "topics.json"])]),
   [("topics.json", some (.obj [("topics", .arr [.str "canvas.component.create"])]))]⟩

/-- A catalog containing one file whose contents do not parse as JSON. -/
def wCatalogC5 : Catalog :=
  ⟨true, true,
   some (.obj [("version", .str "1.0.0"), ("components", .arr [.str "bad.json"])]),
   [("bad.json", none)]⟩

/-- A two-file catalog, index declaring the files in one order. -/
def wCatalogC9a : Catalog :=
  ⟨true, true,
   some (.obj [("version", .str "1.0.0"),
               ("components", .arr [.str "a.json", .str "b.json"])]),
   [("a.json", some goodDoc), ("b.json", some goodDoc)]⟩

/-- The same catalog with the index entries in the opposite order. -/
def wCatalogC9b : Catalog :=
  ⟨true, true,
   some (.obj [("version", .str "1.0.0"),
               ("components", .arr [.str "b.json", .str "a.json"])]),
   [("a.json", some goodDoc), ("b.json", some goodDoc)]⟩

/-- A document whose `ui.template` is present but the empty string. -/
def falsyTemplateDoc : JSON :=
  .obj [("metadata", .obj [("type", .str "x"), ("name", .str "X")]),
        ("ui", .obj [("template", .str "")]),
        ("integration", .bool true)]

/-- A catalog containing only `falsyTemplateDoc`, correctly declared. -/
def wCatalogC10 : Catalog :=
  ⟨true, true,
   some (.obj [("version", .str "1.0.0"), ("components", .arr [.str "f.json"])]),
   [("f.json", some falsyTemplateDoc)]⟩

/-- A catalog whose index has a `version` key bound to the empty string. -/
def wCatalogC10i : Catalog :=
  ⟨true, true,
   some (.obj [("version", .str ""), ("components", .arr [])]),
   []⟩

/-! ## Helper lemmas -/

theorem exceptBind_ok {α β : Type} (a : α) (f : α → Except Unit β) :
    (Except.ok a : Except Unit α) >>= f = f a := rfl

theorem exceptBind_error {α β : Type} (f : α → Except Unit β) :
    (Except.error () : Except Unit α) >>= f = (Except.error () : Except Unit β) := rfl

theorem passes_bind {α : Type} (e : Except Unit α) (f : α → Except Unit Unit)
    (h : passes (e >>= f) = true) : ∃ a, e = Except.ok a ∧ passes (f a) = true := by
  cases e with
  | ok a => exact ⟨a, rfl, h⟩
  | error u =>
    cases u
    rw [exceptBind_error] at h
    exact absurd h (by simp [passes])

theorem jsAccessO_some {w : JSON} (k : String) (h : w ≠ JSON.null) :
    jsAccessO (some w) k = Except.ok (jsGet w k) := by
  cases w with
  | null => exact absurd rfl h
  | bool b => rfl
  | num n => rfl
  | str s => rfl
  | arr xs => rfl
  | obj fs => rfl

theorem jsAccessO_ok {m : Option JSON} {k : String} {t : Option JSON}
    (h : jsAccessO m k = Except.ok t) : ∃ w, m = some w ∧ w ≠ JSON.null ∧ t = jsGet w k := by
  cases m with
  | none => exact absurd h (by simp [jsAccessO])
  | some w =>
    cases w with
    | null => exact absurd h (by simp [jsAccessO])
    | bool b => exact ⟨.bool b, rfl, by simp, by simpa [jsAccessO] using h.symm⟩
    | num n => exact ⟨.num n, rfl, by simp, by simpa [jsAccessO] using h.symm⟩
    | str s => exact ⟨.str s, rfl, by simp, by simpa [jsAccessO] using h.symm⟩
    | arr xs => exact ⟨.arr xs, rfl, by simp, by simpa [jsAccessO] using h.symm⟩
    | obj fs => exact ⟨.obj fs, rfl, by simp, by simpa [jsAccessO] using h.symm⟩

theorem assertExists_ok {m : Option JSON} {u : Unit}
    (h : assertExists m = Except.ok u) : ∃ w, m = some w ∧ w ≠ JSON.null := by
  cases m with
  | none => exact absurd h (by simp [assertExists])
  | some w =>
    cases w with
    | null => exact absurd h (by simp [assertExists])
    | bool b => exact ⟨.bool b, rfl, by simp⟩
    | num n => exact ⟨.num n, rfl, by simp⟩
    | str s => exact ⟨.str s, rfl, by simp⟩
    | arr xs => exact ⟨.arr xs, rfl, by simp⟩
    | obj fs => exact ⟨.obj fs, rfl, by simp⟩

theorem assertEqualStr_ok {m : Option JSON} {s : String} {u : Unit}
    (h : assertEqualStr m s = Except.ok u) : m = some (JSON.str s) := by
  cases m with
  | none => exact absurd h (by simp [assertEqualStr])
  | some w =>
    cases w with
    | str t =>
      by_cases ht : t = s
      · rw [ht]
      · exact absurd h (by simp [assertEqualStr, ht])
    | null => exact absurd h (by simp [assertEqualStr])
    | bool b => exact absurd h (by simp [assertEqualStr])
    | num n => exact absurd h (by simp [assertEqualStr])
    | arr xs => exact absurd h (by simp [assertEqualStr])
    | obj fs => exact absurd h (by simp [assertEqualStr])

theorem assertEqualStr_ne {v : JSON} {s : String} (h : v ≠ JSON.str s) :
    assertEqualStr (some v) s = Except.error () := by
  cases v with
  | str t =>
    have ht : ¬ t = s := fun hts => h (by rw [hts])
    simp [assertEqualStr, ht]
  | null => rfl
  | bool b => rfl
  | num n => rfl
  | arr xs => rfl
  | obj fs => rfl

theorem jsGet_some {w : JSON} {k : String} {x : JSON}
    (h : jsGet w k = some x) : ∃ fs, w = JSON.obj fs ∧ lookupField fs k = some x := by
  cases w with
  | obj fs => exact ⟨fs, rfl, h⟩
  | null => exact absurd h (by simp [jsGet])
  | bool b => exact absurd h (by simp [jsGet])
  | num n => exact absurd h (by simp [jsGet])
  | str s => exact absurd h (by simp [jsGet])
  | arr xs => exact absurd h (by simp [jsGet])

theorem truthy_of_jsGet_some {m : JSON} {k : String} {v : JSON}
    (h : jsGet m k = some v) : truthy m = true := by
  obtain ⟨fs, hfs, _⟩ := jsGet_some h
  rw [hfs]
  rfl

theorem lookupField_map_update (fs : List (String × JSON)) (t : String) (g : JSON → JSON)
    (k : String) :
    lookupField (fs.map fun p => (p.1, if p.1 = t then g p.2 else p.2)) k =
      if k = t then (lookupField fs t).map g else lookupField fs k := by
  induction fs with
  | nil => simp [lookupField]
  | cons hd tl ih =>
    obtain ⟨k1, v1⟩ := hd
    by_cases h1 : k1 = k
    · subst h1
      by_cases h2 : k1 = t
      · subst h2
        simp [lookupField]
      · have h3 : ¬ k1 = t := h2
        simp [lookupField, h3]
    · by_cases h2 : k1 = t
      · subst h2
        have h3 : ¬ k = k1 := fun h => h1 h.symm
        simp [lookupField, h1, h3, ih]
      · simp [lookupField, h1, h2, ih]

theorem mem_fileErrors {files : List (String × Option JSON)} {path : String}
    {od : Option JSON} {i : Issue} (hf : (path, od) ∈ files) (hi : i ∈ fileIssues od) :
    VError.fileIssue path i ∈ fileErrors files := by
  rw [fileErrors, List.mem_flatMap]
  exact ⟨(path, od), hf, List.mem_map.mpr ⟨i, hi, rfl⟩⟩

theorem mem_mainErrors_of_fileErrors {comps : List JSON}
    {files : List (String × Option JSON)} {e : VError} (he : e ∈ fileErrors files) :
    e ∈ mainErrors comps files := by
  rw [mainErrors]
  exact List.mem_append_right _ he

theorem mainStage_exit_of_mem {comps : List JSON} {files : List (String × Option JSON)}
    {e : VError} (he : e ∈ mainErrors comps files) : (mainStage comps files).exit = 1 := by
  have hne : mainErrors comps files ≠ [] := List.ne_nil_of_mem he
  simp [mainStage, List.isEmpty_iff, hne]

theorem mainStage_errors (comps : List JSON) (files : List (String × Option JSON)) :
    (mainStage comps files).errors = mainErrors comps files := rfl

theorem validatePackage_reaches (c : Catalog) (ix : JSON) (xs : List JSON)
    (h1 : c.dirExists = true) (h2 : c.indexExists = true) (h3 : c.indexParse = some ix)
    (h4 : truthyOpt (jsGet ix "version") = true)
    (h5 : componentsArr (jsGet ix "components") = some xs) :
    validatePackage c = mainStage xs c.files := by
  simp [validatePackage, h1, h2, h3, h4, h5]

theorem fileIssues_some {d : JSON} (hnn : d ≠ JSON.null) :
    fileIssues (some d) = if isTopicDoc d then [] else structuralIssues d := by
  cases d with
  | null => exact absurd rfl hnn
  | bool b => rfl
  | num n => rfl
  | str s => rfl
  | arr xs => rfl
  | obj fs => rfl

theorem structural_mem_of_absent (d : JSON) (f : ReqField) (habs : reqFieldAbsent d f) :
    ∃ g ∈ coveringNames f, Issue.missingField g ∈ structuralIssues d := by
  cases f with
  | metadata =>
    rw [reqFieldAbsent] at habs
    exact ⟨"metadata", by simp [coveringNames], by simp [structuralIssues, habs, truthyOpt]⟩
  | metadataType =>
    rw [reqFieldAbsent] at habs
    by_cases hm : truthyOpt (jsGet d "metadata") = true
    · refine ⟨"metadata.type", by simp [coveringNames], ?_⟩
      simp only [structuralIssues, habs, hm]
      simp [truthyOpt]
    · exact ⟨"metadata", by simp [coveringNames], by simp [structuralIssues, hm]⟩
  | metadataName =>
    rw [reqFieldAbsent] at habs
    by_cases hm : truthyOpt (jsGet d "metadata") = true
    · refine ⟨"metadata.name", by simp [coveringNames], ?_⟩
      simp only [structuralIssues, habs, hm]
      simp [truthyOpt]
    · exact ⟨"metadata", by simp [coveringNames], by simp [structuralIssues, hm]⟩
  | ui =>
    rw [reqFieldAbsent] at habs
    exact ⟨"ui", by simp [coveringNames], by simp [structuralIssues, habs, truthyOpt]⟩
  | uiTemplate =>
    rw [reqFieldAbsent] at habs
    by_cases hu : truthyOpt (jsGet d "ui") = true
    · refine ⟨"ui.template", by simp [coveringNames], ?_⟩
      simp only [structuralIssues, habs, hu]
      simp [truthyOpt]
    · exact ⟨"ui", by simp [coveringNames], by simp [structuralIssues, hu]⟩
  | integration =>
    rw [reqFieldAbsent] at habs
    exact ⟨"integration", by simp [coveringNames], by simp [structuralIssues, habs, truthyOpt]⟩

theorem structural_mem_of_falsy (d : JSON) (f : ReqField) (hf : presentFalsy d f) :
    Issue.missingField (fieldName f) ∈ structuralIssues d := by
  cases f with
  | metadata =>
    obtain ⟨v, hv, hfv⟩ := hf
    simp [structuralIssues, fieldName, truthyOpt, hv, hfv]
  | metadataType =>
    obtain ⟨m, v, hm, hv, hfv⟩ := hf
    have hmt : truthy m = true := truthy_of_jsGet_some hv
    simp [structuralIssues, fieldName, truthyOpt, hm, hv, hfv, hmt]
  | metadataName =>
    obtain ⟨m, v, hm, hv, hfv⟩ := hf
    have hmt : truthy m = true := truthy_of_jsGet_some hv
    simp [structuralIssues, fieldName, truthyOpt, hm, hv, hfv, hmt]
  | ui =>
    obtain ⟨v, hv, hfv⟩ := hf
    simp [structuralIssues, fieldName, truthyOpt, hv, hfv]
  | uiTemplate =>
    obtain ⟨u, v, hu, hv, hfv⟩ := hf
    have hut : truthy u = true := truthy_of_jsGet_some hv
    simp [structuralIssues, fieldName, truthyOpt, hu, hv, hfv, hut]
  | integration =>
    obtain ⟨v, hv, hfv⟩ := hf
    simp [structuralIssues, fieldName, truthyOpt, hv, hfv]

theorem template_shape_of_pass (rc : JSON) (h : passes (checkTemplateStructure rc) = true) :
    ∃ fs tfs rfs, rc = JSON.obj fs ∧ lookupField fs "template" = some (JSON.obj tfs) ∧
      lookupField tfs "render" = some (JSON.obj rfs) ∧
      lookupField rfs "strategy" = some (JSON.str "react") := by
  simp only [checkTemplateStructure, topAccess] at h
  obtain ⟨t, hTop, h1⟩ := passes_bind _ _ h
  obtain ⟨w, hw, hwnn, ht⟩ := jsAccessO_ok hTop
  have hrcw : rc = w := Option.some.inj hw
  subst hrcw
  simp only [templateRest] at h1
  obtain ⟨u1, hEx, h2⟩ := passes_bind _ _ h1
  obtain ⟨tv, htv, htvnn⟩ := assertExists_ok hEx
  subst htv
  have hJ1 : jsGet rc "template" = some tv := ht.symm
  obtain ⟨fs, hfs, hlf1⟩ := jsGet_some hJ1
  obtain ⟨r, hR, h3⟩ := passes_bind _ _ h2
  rw [jsAccessO_some _ htvnn] at hR
  have hr : r = jsGet tv "render" := (Except.ok.inj hR).symm
  obtain ⟨u2, hEx2, h4⟩ := passes_bind _ _ h3
  obtain ⟨rv, hrv, hrvnn⟩ := assertExists_ok hEx2
  subst hrv
  have hJ2 : jsGet tv "render" = some rv := hr.symm
  obtain ⟨tfs, htfs, hlf2⟩ := jsGet_some hJ2
  obtain ⟨s, hS, h5⟩ := passes_bind _ _ h4
  rw [jsAccessO_some _ hrvnn] at hS
  have hs : s = jsGet rv "strategy" := (Except.ok.inj hS).symm
  obtain ⟨u3, hEq, _h6⟩ := passes_bind _ _ h5
  have hs2 : s = some (JSON.str "react") := assertEqualStr_ok hEq
  have hJ3 : jsGet rv "strategy" = some (JSON.str "react") := by rw [← hs, hs2]
  obtain ⟨rfs, hrfs, hlf3⟩ := jsGet_some hJ3
  rw [htfs] at hlf1
  rw [hrfs] at hlf2
  exact ⟨fs, tfs, rfs, hfs, hlf1, hlf2, hlf3⟩

theorem perm_any {xs ys : List JSON} (h : xs.Perm ys) (q : JSON → Bool) :
    xs.any q = ys.any q := by
  have hiff : (xs.any q = true) ↔ (ys.any q = true) := by
    simp only [List.any_eq_true]
    constructor
    · rintro ⟨x, hm, hq⟩
      exact ⟨x, h.mem_iff.mp hm, hq⟩
    · rintro ⟨x, hm, hq⟩
      exact ⟨x, h.mem_iff.mpr hm, hq⟩
  cases hx : xs.any q with
  | true => exact (hiff.mp hx).symm
  | false =>
    cases hy : ys.any q with
    | false => rfl
    | true => exact absurd (hiff.mpr hy) (by simp [hx])

theorem mainStage_exit (comps : List JSON) (files : List (String × Option JSON)) :
    (mainStage comps files).exit = if (mainErrors comps files).isEmpty then 0 else 1 := rfl

theorem mainErrors_of_stale_nil {comps : List JSON} {files : List (String × Option JSON)}
    (hb : staleInIndex comps files = []) : mainErrors comps files = fileErrors files := by
  rw [mainErrors, hb]
  rfl

theorem mainErrors_of_stale_cons {comps : List JSON} {files : List (String × Option JSON)}
    {e : JSON} {l : List JSON} (hb : staleInIndex comps files = e :: l) :
    mainErrors comps files = VError.staleEntries (e :: l) :: fileErrors files := by
  rw [mainErrors, hb]
  rfl

theorem mainStage_exit_perm {xs ys : List JSON} (files : List (String × Option JSON))
    (h : xs.Perm ys) : (mainStage xs files).exit = (mainStage ys files).exit := by
  have hstale : (staleInIndex xs files).Perm (staleInIndex ys files) := h.filter _
  rw [mainStage_exit, mainStage_exit]
  cases hx : staleInIndex xs files with
  | nil =>
    rw [hx] at hstale
    have hy : staleInIndex ys files = [] := hstale.symm.eq_nil
    rw [mainErrors_of_stale_nil hx, mainErrors_of_stale_nil hy]
  | cons e l =>
    rw [hx] at hstale
    cases hy : staleInIndex ys files with
    | nil =>
      rw [hy] at hstale
      exact absurd hstale.eq_nil (by simp)
    | cons e2 l2 =>
      rw [mainErrors_of_stale_cons hx, mainErrors_of_stale_cons hy]
      rfl

theorem mainStage_warnings (comps : List JSON) (files : List (String × Option JSON)) :
    (mainStage comps files).warnings =
      if (missingFromIndex comps files).isEmpty then [] else [missingFromIndex comps files] := rfl

/-! ## Claim theorems -/

/-- Claim C2 (confirmed): for every entry of the index's `components` array
that is a relative path with no corresponding file on disk (a stale entry),
a validator run that reaches the comparison stage reports a stale-entry
error containing that entry and exits with status 1. -/
theorem validator_stale_entry_errors (c : Catalog) (ix : JSON) (xs : List JSON) (s : String)
    (h1 : c.dirExists = true) (h2 : c.indexExists = true) (h3 : c.indexParse = some ix)
    (h4 : truthyOpt (jsGet ix "version") = true)
    (h5 : componentsArr (jsGet ix "components") = some xs)
    (hmem : JSON.str s ∈ xs) (hnofile : ∀ f ∈ c.files, f.1 ≠ s) :
    (validatePackage c).exit = 1 ∧
      ∃ stale, VError.staleEntries stale ∈ (validatePackage c).errors ∧ JSON.str s ∈ stale := by
  rw [validatePackage_reaches c ix xs h1 h2 h3 h4 h5]
  have hin : JSON.str s ∈ staleInIndex xs c.files := by
    rw [staleInIndex, List.mem_filter]
    refine ⟨hmem, ?_⟩
    rw [Bool.not_eq_true', List.any_eq_false]
    intro p hp
    rw [actualFiles, List.mem_map] at hp
    obtain ⟨f, hf, hfp⟩ := hp
    have hne : s ≠ p := fun hsp => hnofile f hf (by rw [hfp, ← hsp])
    simp [matchesPath, beq_eq_false_iff_ne.mpr hne]
  rcases hx : staleInIndex xs c.files with _ | ⟨e, l⟩
  · rw [hx] at hin
    exact absurd hin (by simp)
  · refine ⟨?_, e :: l, ?_, ?_⟩
    · rw [mainStage_exit, mainErrors_of_stale_cons hx]
      rfl
    · rw [mainStage_errors, mainErrors_of_stale_cons hx]
      exact List.mem_cons_self _ _
    · rw [← hx]
      exact hin

/-- Witness for C2: a concrete catalog whose index declares `ghost.json`
although no such file exists; the validator exits 1 and reports the stale
entry. -/
theorem validator_stale_entry_errors_witness :
    (validatePackage wCatalogC2).exit = 1 ∧
      ∃ stale, VError.staleEntries stale ∈ (validatePackage wCatalogC2).errors ∧
        JSON.str "ghost.json" ∈ stale :=
  validator_stale_entry_errors wCatalogC2
    (.obj [("version", .str "1.0.0"), ("components", .arr [.str "a.json", .str "ghost.json"])])
    [.str "a.json", .str "ghost.json"] "ghost.json" rfl rfl rfl rfl rfl
    (by simp) (by simp [wCatalogC2, goodDoc])

/-- Claim C3 (confirmed): a component file present on disk but not listed in
the index only produces a warning: in an otherwise-valid catalog the
validator prints no error, lists the undeclared file in its warning, and
exits with status 0. -/
theorem validator_undeclared_file_warns_only (c : Catalog) (ix : JSON) (xs : List JSON)
    (p : String) (dp : Option JSON)
    (h1 : c.dirExists = true) (h2 : c.indexExists = true) (h3 : c.indexParse = some ix)
    (h4 : truthyOpt (jsGet ix "version") = true)
    (h5 : componentsArr (jsGet ix "components") = some xs)
    (hcover : ∀ e ∈ xs, (actualFiles c.files).any (fun q => matchesPath e q) = true)
    (hclean : ∀ f ∈ c.files, fileIssues f.2 = [])
    (hp : (p, dp) ∈ c.files)
    (hundecl : ∀ e ∈ xs, matchesPath e p = false) :
    (validatePackage c).exit = 0 ∧ (validatePackage c).errors = [] ∧
      p ∈ missingFromIndex xs c.files ∧
      (validatePackage c).warnings = [missingFromIndex xs c.files] := by
  rw [validatePackage_reaches c ix xs h1 h2 h3 h4 h5]
  have hstale : staleInIndex xs c.files = [] := by
    rw [staleInIndex, List.filter_eq_nil_iff]
    intro e he
    simp [hcover e he]
  have hfe : fileErrors c.files = [] := by
    rw [fileErrors, List.flatMap_eq_nil_iff]
    intro f hf
    rw [hclean f hf]
    rfl
  have hme : mainErrors xs c.files = [] := by
    rw [mainErrors_of_stale_nil hstale, hfe]
  have hanyf : (xs.any fun e => matchesPath e p) = false := by
    rw [List.any_eq_false]
    intro e he
    simp [hundecl e he]
  have hmiss : p ∈ missingFromIndex xs c.files := by
    rw [missingFromIndex, List.mem_filter]
    refine ⟨?_, ?_⟩
    · rw [actualFiles, List.mem_map]
      exact ⟨(p, dp), hp, rfl⟩
    · rw [hanyf]
      rfl
  refine ⟨?_, ?_, hmiss, ?_⟩
  · rw [mainStage_exit, hme]
    rfl
  · rw [mainStage_errors]
    exact hme
  · rw [mainStage_warnings]
    rcases hmx : missingFromIndex xs c.files with _ | ⟨a, l⟩
    · rw [hmx] at hmiss
      exact absurd hmiss (by simp)
    · rfl

/-- Witness for C3: a concrete otherwise-valid catalog with the undeclared
file `extra.json`; the validator exits 0, prints no error and warns about
the file. -/
theorem validator_undeclared_file_warns_only_witness :
    (validatePackage wCatalogC3).exit = 0 ∧ (validatePackage wCatalogC3).errors = [] ∧
      "extra.json" ∈ missingFromIndex [JSON.str "a.json"] wCatalogC3.files ∧
      (validatePackage wCatalogC3).warnings =
        [missingFromIndex [JSON.str "a.json"] wCatalogC3.files] :=
  validator_undeclared_file_warns_only wCatalogC3
    (.obj [("version", .str "1.0.0"), ("components", .arr [.str "a.json"])])
    [.str "a.json"] "extra.json" (some goodDoc) rfl rfl rfl rfl rfl
    (by intro e he; simp at he; subst he; rfl)
    (by intro f hf; simp [wCatalogC3] at hf; rcases hf with h | h <;> (subst h; rfl))
    (by simp [wCatalogC3])
    (by intro e he; simp at he; subst he; rfl)

/-- Claim C5 (confirmed): a discovered component file whose contents do not
parse as JSON always gets a reported JSON-parse error, and the run exits
with status 1 — it is never silently skipped. -/
theorem validator_invalid_json_errors (c : Catalog) (ix : JSON) (xs : List JSON) (p : String)
    (h1 : c.dirExists = true) (h2 : c.indexExists = true) (h3 : c.indexParse = some ix)
    (h4 : truthyOpt (jsGet ix "version") = true)
    (h5 : componentsArr (jsGet ix "components") = some xs)
    (hp : (p, none) ∈ c.files) :
    (validatePackage c).exit = 1 ∧
      VError.fileIssue p Issue.invalidJson ∈ (validatePackage c).errors := by
  rw [validatePackage_reaches c ix xs h1 h2 h3 h4 h5]
  have hfe : VError.fileIssue p Issue.invalidJson ∈ fileErrors c.files :=
    mem_fileErrors hp (by simp [fileIssues])
  have hmain : VError.fileIssue p Issue.invalidJson ∈ mainErrors xs c.files :=
    mem_mainErrors_of_fileErrors hfe
  refine ⟨mainStage_exit_of_mem hmain, ?_⟩
  rw [mainStage_errors]
  exact hmain

/-- Witness for C5: a concrete catalog whose only file `bad.json` does not
parse; the validator reports it and exits 1. -/
theorem validator_invalid_json_errors_witness :
    (validatePackage wCatalogC5).exit = 1 ∧
      VError.fileIssue "bad.json" Issue.invalidJson ∈ (validatePackage wCatalogC5).errors :=
  validator_invalid_json_errors wCatalogC5
    (.obj [("version", .str "1.0.0"), ("components", .arr [.str "bad.json"])])
    [.str "bad.json"] "bad.json" rfl rfl rfl rfl rfl (by simp [wCatalogC5])

/-- Claim C1 (corrected), counterexample: the claim demands an error *for
the absent field itself*.  In `cexDoc1` the field `metadata` is present (so
the claim does not fire for it) but falsy, hence `metadata.type` is absent;
the validator nevertheless reports only `metadata` as missing — no error
names `metadata.type` (or any other absent listed field) — while exiting
with status 1. -/
theorem validator_field_attribution_cex :
    reqFieldAbsent cexDoc1 ReqField.metadataType ∧
    hasKey cexDoc1 "metadata" = true ∧
    (validatePackage cexCatalog1).exit = 1 ∧
    (validatePackage cexCatalog1).errors =
      [VError.fileIssue "comp.json" (Issue.missingField "metadata")] ∧
    VError.fileIssue "comp.json" (Issue.missingField "metadata.type") ∉
      (validatePackage cexCatalog1).errors := by
  refine ⟨rfl, rfl, rfl, rfl, ?_⟩
  intro hmem
  have h : (validatePackage cexCatalog1).errors =
      [VError.fileIssue "comp.json" (Issue.missingField "metadata")] := rfl
  rw [h, List.mem_singleton] at hmem
  injection hmem with hp hi
  injection hi with hf
  exact absurd hf (by decide)

/-- Claim C1 (corrected), amended: for every discovered non-topic component
file, if any of `metadata`, `metadata.type`, `metadata.name`, `ui`,
`ui.template` or `integration` is absent, the validator reports a
missing-field error naming that field *or its parent object field*
(`metadata` respectively `ui`), and the run exits with status 1. -/
theorem validator_missing_required_field_errors (c : Catalog) (ix : JSON) (xs : List JSON)
    (path : String) (d : JSON) (f : ReqField)
    (h1 : c.dirExists = true) (h2 : c.indexExists = true) (h3 : c.indexParse = some ix)
    (h4 : truthyOpt (jsGet ix "version") = true)
    (h5 : componentsArr (jsGet ix "components") = some xs)
    (hp : (path, some d) ∈ c.files) (hnn : d ≠ JSON.null) (htop : isTopicDoc d = false)
    (habs : reqFieldAbsent d f) :
    (validatePackage c).exit = 1 ∧
      ∃ g ∈ coveringNames f,
        VError.fileIssue path (Issue.missingField g) ∈ (validatePackage c).errors := by
  rw [validatePackage_reaches c ix xs h1 h2 h3 h4 h5]
  obtain ⟨g, hg, hgm⟩ := structural_mem_of_absent d f habs
  have hi : Issue.missingField g ∈ fileIssues (some d) := by
    rw [fileIssues_some hnn, htop]
    simpa using hgm
  have hfe : VError.fileIssue path (Issue.missingField g) ∈ fileErrors c.files :=
    mem_fileErrors hp hi
  have hmain : VError.fileIssue path (Issue.missingField g) ∈ mainErrors xs c.files :=
    mem_mainErrors_of_fileErrors hfe
  refine ⟨mainStage_exit_of_mem hmain, g, hg, ?_⟩
  rw [mainStage_errors]
  exact hmain

/-- Witness for the amended C1: a catalog whose only component lacks
`metadata` entirely; the validator exits 1 reporting `metadata` missing. -/
theorem validator_missing_required_field_errors_witness :
    (validatePackage wCatalogC1).exit = 1 ∧
      ∃ g ∈ coveringNames ReqField.metadata,
        VError.fileIssue "a.json" (Issue.missingField g) ∈ (validatePackage wCatalogC1).errors :=
  validator_missing_required_field_errors wCatalogC1
    (.obj [("version", .str "1.0.0"), ("components", .arr [.str "a.json"])])
    [.str "a.json"] "a.json" noMetadataDoc ReqField.metadata rfl rfl rfl rfl rfl
    (by simp [wCatalogC1]) (fun h => JSON.noConfusion h) rfl rfl

/-- Claim C4 (corrected), counterexample: recognition of topic/definition
documents is *not* decided by key presence alone.  `topicNullDoc` carries a
top-level `topics` key (bound to `null`), yet the validator does not skip
its structural checks: it reports `metadata` as missing and exits 1. -/
theorem topic_key_presence_cex :
    hasKey topicNullDoc "topics" = true ∧
    (validatePackage cexCatalog4).exit = 1 ∧
    VError.fileIssue "topics.json" (Issue.missingField "metadata") ∈
      (validatePackage cexCatalog4).errors := by
  refine ⟨rfl, rfl, ?_⟩
  have h : (validatePackage cexCatalog4).errors =
      [VError.fileIssue "topics.json" (Issue.missingField "metadata"),
       VError.fileIssue "topics.json" (Issue.missingField "ui"),
       VError.fileIssue "topics.json" (Issue.missingField "integration")] := rfl
  rw [h]
  exact List.mem_cons_self _ _

/-- Claim C4 (corrected), amended: structural checks are skipped exactly when
the value of the `topics` or `definitions` key is *truthy*: when so, no
error at all is reported for the file (even if every required field is
missing); when both are falsy or absent, the checks run — e.g. a missing
`metadata` is reported — regardless of whether the keys are present. -/
theorem topic_skip_iff_truthy (c : Catalog) (ix : JSON) (xs : List JSON)
    (path : String) (d : JSON)
    (h1 : c.dirExists = true) (h2 : c.indexExists = true) (h3 : c.indexParse = some ix)
    (h4 : truthyOpt (jsGet ix "version") = true)
    (h5 : componentsArr (jsGet ix "components") = some xs)
    (hp : (path, some d) ∈ c.files)
    (hnodup : (c.files.map Prod.fst).Nodup) (hnn : d ≠ JSON.null) :
    ((truthyOpt (jsGet d "topics") || truthyOpt (jsGet d "definitions")) = true →
      ∀ i, VError.fileIssue path i ∉ (validatePackage c).errors) ∧
    ((truthyOpt (jsGet d "topics") || truthyOpt (jsGet d "definitions")) = false →
      jsGet d "metadata" = none →
      VError.fileIssue path (Issue.missingField "metadata") ∈ (validatePackage c).errors) := by
  rw [validatePackage_reaches c ix xs h1 h2 h3 h4 h5]
  constructor
  · intro htr i hmem
    rw [mainStage_errors, mainErrors] at hmem
    rcases List.mem_append.mp hmem with hL | hR
    · rcases hx : staleInIndex xs c.files with _ | ⟨e, l⟩ <;> rw [hx] at hL <;> simp at hL
    · rw [fileErrors, List.mem_flatMap] at hR
      obtain ⟨⟨q, od⟩, hqod, hmm2⟩ := hR
      rw [List.mem_map] at hmm2
      obtain ⟨j, hj, hj2⟩ := hmm2
      injection hj2 with hq hi2
      have heq : ((q, od) : String × Option JSON) = (path, some d) :=
        List.inj_on_of_nodup_map hnodup hqod hp hq
      injection heq with hq2 hod
      rw [hod] at hj
      have htd : isTopicDoc d = true := htr
      rw [fileIssues_some hnn, htd] at hj
      simp at hj
  · intro hfl hmeta
    have htop : isTopicDoc d = false := hfl
    have hi : Issue.missingField "metadata" ∈ fileIssues (some d) := by
      rw [fileIssues_some hnn, htop]
      simp [structuralIssues, hmeta, truthyOpt]
    rw [mainStage_errors]
    exact mem_mainErrors_of_fileErrors (mem_fileErrors hp hi)

/-- Witness for the amended C4: a catalog with one topic document (truthy
`topics` array) that fails every structural check; no error at all is
reported for it. -/
theorem topic_skip_iff_truthy_witness :
    (∀ i, VError.fileIssue "topics.json" i ∉ (validatePackage wCatalogC4).errors) ∧
      (truthyOpt (jsGet (JSON.obj [("topics", .arr [.str "canvas.component.create"])]) "topics") ||
        truthyOpt (jsGet (JSON.obj [("topics", .arr [.str "canvas.component.create"])]) "definitions")) = true :=
  ⟨(topic_skip_iff_truthy wCatalogC4
      (.obj [("version", .str "1.0.0"), ("components", .arr [.str "topics.json"])])
      [.str "topics.json"] "topics.json"
      (.obj [("topics", .arr [.str "canvas.component.create"])])
      rfl rfl rfl rfl rfl (by simp [wCatalogC4]) (by simp [wCatalogC4])
      (fun h => JSON.noConfusion h)).1 rfl,
   rfl⟩

/-- Claim C10 (confirmed): the validator's checks test JavaScript truthiness
rather than key presence.  First part: in a non-topic component file, a
required field that is present but bound to a falsy value (`""`, `0`,
`false`, `null`) is reported as missing under its own name, and the run
exits 1.  Second part: an index whose `version` key is present but falsy is
reported as missing `version`, and the run exits 1. -/
theorem validator_truthiness_checks :
    (∀ (c : Catalog) (ix : JSON) (xs : List JSON) (path : String) (d : JSON) (f : ReqField),
      c.dirExists = true → c.indexExists = true → c.indexParse = some ix →
      truthyOpt (jsGet ix "version") = true →
      componentsArr (jsGet ix "components") = some xs →
      (path, some d) ∈ c.files → d ≠ JSON.null → isTopicDoc d = false →
      presentFalsy d f →
      (validatePackage c).exit = 1 ∧
        VError.fileIssue path (Issue.missingField (fieldName f)) ∈ (validatePackage c).errors) ∧
    (∀ (c : Catalog) (ix : JSON) (v : JSON),
      c.dirExists = true → c.indexExists = true → c.indexParse = some ix →
      jsGet ix "version" = some v → truthy v = false →
      (validatePackage c).exit = 1 ∧
        VError.indexMissingVersion ∈ (validatePackage c).errors) := by
  constructor
  · intro c ix xs path d f h1 h2 h3 h4 h5 hp hnn htop hfal
    rw [validatePackage_reaches c ix xs h1 h2 h3 h4 h5]
    have hi : Issue.missingField (fieldName f) ∈ fileIssues (some d) := by
      rw [fileIssues_some hnn, htop]
      simpa using structural_mem_of_falsy d f hfal
    have hmain : VError.fileIssue path (Issue.missingField (fieldName f)) ∈ mainErrors xs c.files :=
      mem_mainErrors_of_fileErrors (mem_fileErrors hp hi)
    refine ⟨mainStage_exit_of_mem hmain, ?_⟩
    rw [mainStage_errors]
    exact hmain
  · intro c ix v h1 h2 h3 hv hfv
    have hto : truthyOpt (jsGet ix "version") = false := by
      rw [hv]
      exact hfv
    cases hca : componentsArr (jsGet ix "components") with
    | none =>
      constructor
      · simp [validatePackage, h1, h2, h3, hto, hca]
      · simp [validatePackage, h1, h2, h3, hto, hca]
    | some xs =>
      constructor
      · simp [validatePackage, h1, h2, h3, hto, hca]
      · simp [validatePackage, h1, h2, h3, hto, hca]

/-- Witness for C10: a component file whose `ui.template` is the empty
string is reported as missing `ui.template` with exit 1, and an index whose
`version` is the empty string is reported as missing `version` with
exit 1. -/
theorem validator_truthiness_checks_witness :
    ((validatePackage wCatalogC10).exit = 1 ∧
      VError.fileIssue "f.json" (Issue.missingField "ui.template") ∈
        (validatePackage wCatalogC10).errors) ∧
    ((validatePackage wCatalogC10i).exit = 1 ∧
      VError.indexMissingVersion ∈ (validatePackage wCatalogC10i).errors) :=
  ⟨validator_truthiness_checks.1 wCatalogC10
      (.obj [("version", .str "1.0.0"), ("components", .arr [.str "f.json"])])
      [.str "f.json"] "f.json" falsyTemplateDoc ReqField.uiTemplate
      rfl rfl rfl rfl rfl (by simp [wCatalogC10]) (fun h => JSON.noConfusion h) rfl
      ⟨.obj [("template", .str "")], .str "", rfl, rfl, rfl⟩,
   validator_truthiness_checks.2 wCatalogC10i
      (.obj [("version", .str ""), ("components", .arr [])]) (.str "")
      rfl rfl rfl rfl rfl⟩

/-- Claim C6 (confirmed): once the two documents are loaded, the suite runs
exactly 8 checks; each check's outcome is recorded individually (a thrown
assertion makes exactly that entry `false`), the run counts the passed
checks, and the process exits 0 exactly when all 8 passed and 1 exactly
when some check failed. -/
theorem runTests_exit_iff_all_passed (rc idx : JSON) :
    testCount rc idx = 8 ∧
      (runTestsExit rc idx = 0 ↔ ∀ b ∈ testResults rc idx, b = true) ∧
      (runTestsExit rc idx = 1 ↔ ¬ ∀ b ∈ testResults rc idx, b = true) := by
  have hiff : (passedCount rc idx = testCount rc idx) ↔
      (∀ b ∈ testResults rc idx, b = true) := by
    rw [passedCount, testCount, List.count_eq_length]
    constructor
    · intro h b hb
      exact (h b hb).symm
    · intro h b hb
      exact (h b hb).symm
  refine ⟨rfl, ?_, ?_⟩
  · constructor
    · intro h
      by_contra hall
      have hne : passedCount rc idx ≠ testCount rc idx := fun hc => hall (hiff.mp hc)
      have hrt : runTests rc idx = false := by
        rw [runTests]
        exact beq_eq_false_iff_ne.mpr hne
      rw [runTestsExit, hrt] at h
      simp at h
    · intro hall
      have hrt : runTests rc idx = true := by
        rw [runTests, beq_iff_eq]
        exact hiff.mpr hall
      rw [runTestsExit, hrt]
      rfl
  · constructor
    · intro h hall
      have hrt : runTests rc idx = true := by
        rw [runTests, beq_iff_eq]
        exact hiff.mpr hall
      rw [runTestsExit, hrt] at h
      simp at h
    · intro hall
      have hne : passedCount rc idx ≠ testCount rc idx := fun hc => hall (hiff.mp hc)
      have hrt : runTests rc idx = false := by
        rw [runTests]
        exact beq_eq_false_iff_ne.mpr hne
      rw [runTestsExit, hrt]
      rfl

theorem validatePackage_exit_flags (c : Catalog)
    (hb : (c.dirExists && c.indexExists) = false) : (validatePackage c).exit = 1 := by
  simp [validatePackage, hb]

theorem validatePackage_exit_parse_none (c : Catalog)
    (hb : (c.dirExists && c.indexExists) = true) (hA : c.indexParse = none) :
    (validatePackage c).exit = 1 := by
  simp [validatePackage, hb, hA]

theorem validatePackage_exit_parse_some (c : Catalog) (ix : JSON)
    (hb : (c.dirExists && c.indexExists) = true) (hA : c.indexParse = some ix) :
    (validatePackage c).exit = indexStageExit ix c.files := by
  rw [validatePackage, indexStageExit, hb, hA]
  cases hv : truthyOpt (jsGet ix "version") with
  | false =>
    cases hca : componentsArr (jsGet ix "components") with
    | none => simp [hv, hca]
    | some xs => simp [hv, hca]
  | true =>
    cases hca : componentsArr (jsGet ix "components") with
    | none => simp [hv, hca]
    | some xs => simp [hv, hca]

theorem indexStageExit_ver_false {ix : JSON} (files : List (String × Option JSON))
    (hv : truthyOpt (jsGet ix "version") = false) : indexStageExit ix files = 1 := by
  simp [indexStageExit, hv]

theorem indexStageExit_arr_none {ix : JSON} (files : List (String × Option JSON))
    (hv : truthyOpt (jsGet ix "version") = true)
    (hca : componentsArr (jsGet ix "components") = none) : indexStageExit ix files = 1 := by
  simp [indexStageExit, hv, hca]

theorem indexStageExit_arr_some {ix : JSON} {xs : List JSON}
    (files : List (String × Option JSON))
    (hv : truthyOpt (jsGet ix "version") = true)
    (hca : componentsArr (jsGet ix "components") = some xs) :
    indexStageExit ix files = (mainStage xs files).exit := by
  simp [indexStageExit, hv, hca]

/-- Claim C9 (confirmed): permuting the entries of the index's `components`
array never changes the validator's exit status — declaration order is
irrelevant to validation. -/
theorem validator_exit_perm_invariant (c c' : Catalog)
    (hd : c.dirExists = c'.dirExists) (hi : c.indexExists = c'.indexExists)
    (hf : c.files = c'.files)
    (hx : indexEquivUpToPerm c.indexParse c'.indexParse) :
    (validatePackage c).exit = (validatePackage c').exit := by
  have hb' : (c'.dirExists && c'.indexExists) = (c.dirExists && c.indexExists) := by
    rw [hd, hi]
  cases hb : (c.dirExists && c.indexExists) with
  | false =>
    rw [validatePackage_exit_flags c hb, validatePackage_exit_flags c' (hb'.trans hb)]
  | true =>
    cases hA : c.indexParse with
    | none =>
      cases hB : c'.indexParse with
      | none =>
        rw [validatePackage_exit_parse_none c hb hA,
          validatePackage_exit_parse_none c' (hb'.trans hb) hB]
      | some b =>
        rw [hA, hB] at hx
        simp [indexEquivUpToPerm] at hx
    | some a =>
      cases hB : c'.indexParse with
      | none =>
        rw [hA, hB] at hx
        simp [indexEquivUpToPerm] at hx
      | some b =>
        rw [validatePackage_exit_parse_some c a hb hA,
          validatePackage_exit_parse_some c' b (hb'.trans hb) hB, ← hf]
        rw [hA, hB] at hx
        simp only [indexEquivUpToPerm] at hx
        obtain ⟨hv, hcomp⟩ := hx
        cases hva : truthyOpt (jsGet a "version") with
        | false =>
          have hvb : truthyOpt (jsGet b "version") = false := by rw [← hv, hva]
          rw [indexStageExit_ver_false c.files hva, indexStageExit_ver_false c.files hvb]
        | true =>
          have hvb : truthyOpt (jsGet b "version") = true := by rw [← hv, hva]
          cases hca : componentsArr (jsGet a "components") with
          | none =>
            cases hcb : componentsArr (jsGet b "components") with
            | none =>
              rw [indexStageExit_arr_none c.files hva hca,
                indexStageExit_arr_none c.files hvb hcb]
            | some ys =>
              rw [hca, hcb] at hcomp
              simp [componentsRel] at hcomp
          | some xs =>
            cases hcb : componentsArr (jsGet b "components") with
            | none =>
              rw [hca, hcb] at hcomp
              simp [componentsRel] at hcomp
            | some ys =>
              rw [indexStageExit_arr_some c.files hva hca,
                indexStageExit_arr_some c.files hvb hcb]
              rw [hca, hcb] at hcomp
              simp only [componentsRel] at hcomp
              exact mainStage_exit_perm c.files hcomp

/-- Witness for C9: two concrete catalogs that differ only in the order of
the two index entries have the same exit status. -/
theorem validator_exit_perm_invariant_witness :
    (validatePackage wCatalogC9a).exit = (validatePackage wCatalogC9b).exit :=
  validator_exit_perm_invariant wCatalogC9a wCatalogC9b rfl rfl rfl
    (by
      refine ⟨rfl, ?_⟩
      show List.Perm [JSON.str "a.json", JSON.str "b.json"] [JSON.str "b.json", JSON.str "a.json"]
      exact List.Perm.swap (JSON.str "b.json") (JSON.str "a.json") [])

/-- Claim C7 (confirmed): on any pair of documents on which all 8 tests
pass, replacing only the value of `template.render.strategy` by any value
other than `"react"` makes exactly the template-structure test (the fourth)
fail, while the other seven tests keep their outcomes (they all still
pass). -/
theorem strategy_corruption_breaks_only_template_test (rc idx v : JSON)
    (hall : ∀ b ∈ testResults rc idx, b = true) (hv : v ≠ JSON.str "react") :
    testResults (setPath ["template", "render", "strategy"] v rc) idx =
      [true, true, true, false, true, true, true, true] := by
  have hT : passes (checkTemplateStructure rc) = true := hall _ (by simp [testResults])
  obtain ⟨fs, tfs, rfs, hrc, hlf1, hlf2, hlf3⟩ := template_shape_of_pass rc hT
  subst hrc
  have hset : setPath ["template", "render", "strategy"] v (JSON.obj fs) =
      JSON.obj (fs.map fun p =>
        (p.1, if p.1 = "template" then setPath ["render", "strategy"] v p.2 else p.2)) := rfl
  have hTo : setPath ["render", "strategy"] v (JSON.obj tfs) =
      JSON.obj (tfs.map fun p =>
        (p.1, if p.1 = "render" then setPath ["strategy"] v p.2 else p.2)) := rfl
  have hRo : setPath ["strategy"] v (JSON.obj rfs) =
      JSON.obj (rfs.map fun p =>
        (p.1, if p.1 = "strategy" then setPath [] v p.2 else p.2)) := rfl
  have hother : ∀ k : String, ¬ k = "template" →
      topAccess (setPath ["template", "render", "strategy"] v (JSON.obj fs)) k =
        topAccess (JSON.obj fs) k := by
    intro k hk
    rw [hset, topAccess, topAccess,
      jsAccessO_some k (fun h => JSON.noConfusion h),
      jsAccessO_some k (fun h => JSON.noConfusion h)]
    simp only [jsGet]
    rw [lookupField_map_update fs "template" (setPath ["render", "strategy"] v) k, if_neg hk]
  have ht' : topAccess (setPath ["template", "render", "strategy"] v (JSON.obj fs)) "template" =
      Except.ok (some (setPath ["render", "strategy"] v (JSON.obj tfs))) := by
    rw [hset, topAccess, jsAccessO_some _ (fun h => JSON.noConfusion h)]
    simp only [jsGet]
    rw [lookupField_map_update fs "template" (setPath ["render", "strategy"] v) "template",
      if_pos rfl, hlf1]
    rfl
  have hr' : jsGet (setPath ["render", "strategy"] v (JSON.obj tfs)) "render" =
      some (setPath ["strategy"] v (JSON.obj rfs)) := by
    rw [hTo]
    simp only [jsGet]
    rw [lookupField_map_update tfs "render" (setPath ["strategy"] v) "render",
      if_pos rfl, hlf2]
    rfl
  have hs' : jsGet (setPath ["strategy"] v (JSON.obj rfs)) "strategy" = some v := by
    rw [hRo]
    simp only [jsGet]
    rw [lookupField_map_update rfs "strategy" (setPath [] v) "strategy", if_pos rfl, hlf3]
    rfl
  have hTex : assertExists (some (setPath ["render", "strategy"] v (JSON.obj tfs))) =
      Except.ok () := by
    rw [hTo]
    rfl
  have hTacc : jsAccessO (some (setPath ["render", "strategy"] v (JSON.obj tfs))) "render" =
      Except.ok (some (setPath ["strategy"] v (JSON.obj rfs))) := by
    rw [jsAccessO_some _ (by rw [hTo]; exact fun h => JSON.noConfusion h), hr']
  have hRex : assertExists (some (setPath ["strategy"] v (JSON.obj rfs))) =
      Except.ok () := by
    rw [hRo]
    rfl
  have hRacc : jsAccessO (some (setPath ["strategy"] v (JSON.obj rfs))) "strategy" =
      Except.ok (some v) := by
    rw [jsAccessO_some _ (by rw [hRo]; exact fun h => JSON.noConfusion h), hs']
  have hEqF : assertEqualStr (some v) "react" = Except.error () := assertEqualStr_ne hv
  have e4 : passes (checkTemplateStructure
      (setPath ["template", "render", "strategy"] v (JSON.obj fs))) = false := by
    simp only [checkTemplateStructure, ht', templateRest, hTex, hTacc, hRex, hRacc, hEqF,
      exceptBind_ok, exceptBind_error]
    rfl
  have p1 : passes (checkMetadataFields (JSON.obj fs)) = true := hall _ (by simp [testResults])
  have p2 : passes (checkUiConfiguration (JSON.obj fs)) = true := hall _ (by simp [testResults])
  have p3 : passes (checkIntegrationProperties (JSON.obj fs)) = true :=
    hall _ (by simp [testResults])
  have p5 : passes (checkPluginInteractions (JSON.obj fs)) = true :=
    hall _ (by simp [testResults])
  have p6 : passes (checkIndexIncludesReact idx) = true := hall _ (by simp [testResults])
  have p7 : passes (checkCanvasIntegration (JSON.obj fs)) = true :=
    hall _ (by simp [testResults])
  have p8 : passes (checkEventDefinitions (JSON.obj fs)) = true := hall _ (by simp [testResults])
  have e1 : passes (checkMetadataFields
      (setPath ["template", "render", "strategy"] v (JSON.obj fs))) = true := by
    rw [checkMetadataFields, hother "metadata" (by decide)]
    exact p1
  have e2 : passes (checkUiConfiguration
      (setPath ["template", "render", "strategy"] v (JSON.obj fs))) = true := by
    rw [checkUiConfiguration, hother "ui" (by decide)]
    exact p2
  have e3 : passes (checkIntegrationProperties
      (setPath ["template", "render", "strategy"] v (JSON.obj fs))) = true := by
    rw [checkIntegrationProperties, hother "integration" (by decide)]
    exact p3
  have e5 : passes (checkPluginInteractions
      (setPath ["template", "render", "strategy"] v (JSON.obj fs))) = true := by
    rw [checkPluginInteractions, hother "interactions" (by decide)]
    exact p5
  have e7 : passes (checkCanvasIntegration
      (setPath ["template", "render", "strategy"] v (JSON.obj fs))) = true := by
    rw [checkCanvasIntegration, hother "integration" (by decide)]
    exact p7
  have e8 : passes (checkEventDefinitions
      (setPath ["template", "render", "strategy"] v (JSON.obj fs))) = true := by
    rw [checkEventDefinitions, hother "integration" (by decide)]
    exact p8
  simp only [testResults]
  rw [e1, e2, e3, e4, e5, p6, e7, e8]

/-- Witness for C7: on the modelled example component (on which all 8 tests
pass) with the strategy replaced by `"html"`, exactly the fourth test
fails. -/
theorem strategy_corruption_breaks_only_template_test_witness :
    (∀ b ∈ testResults reactExample idxExample, b = true) ∧
      testResults (setPath ["template", "render", "strategy"] (JSON.str "html") reactExample)
          idxExample =
        [true, true, true, false, true, true, true, true] :=
  ⟨by decide,
   strategy_corruption_breaks_only_template_test reactExample idxExample (JSON.str "html")
     (by decide)
     (by intro h; injection h with h2; exact absurd h2 (by decide))⟩

/-- Claim C8 (corrected), counterexample: the three listed conditions are
not sufficient for 8/8.  `cexDoc8` satisfies all three — `metadata.type` is
`"react"`, `ui.icon.value` is `"⚛️"`, and `template.classes` contains
`rx-comp` and `rx-react` — yet the suite does not report 8 passed tests
(it reports 1): the other fields the tests read (`metadata.name`,
`template.render.strategy`, `integration`, …) are missing. -/
theorem react_suite_three_conditions_cex :
    ((jsGet cexDoc8 "metadata").bind fun m => jsGet m "type") = some (JSON.str "react") ∧
    ((jsGet cexDoc8 "ui").bind fun u => (jsGet u "icon").bind fun i => jsGet i "value") =
      some (JSON.str "⚛️") ∧
    ((jsGet cexDoc8 "template").bind fun t => jsGet t "classes") =
      some (JSON.arr [JSON.str "rx-comp", JSON.str "rx-react"]) ∧
    passedCount cexDoc8 idxExample ≠ 8 :=
  ⟨rfl, rfl, rfl, by decide⟩

/-- Claim C8 (corrected), amended: the fixed example component — modelled
from the spec, satisfying the three stated conditions together with the
remaining fields the eight checks read — makes the suite report 8 of 8
tests passed, with process exit status 0. -/
theorem react_example_suite_passes :
    ((jsGet reactExample "metadata").bind fun m => jsGet m "type") = some (JSON.str "react") ∧
    ((jsGet reactExample "ui").bind fun u => (jsGet u "icon").bind fun i => jsGet i "value") =
      some (JSON.str "⚛️") ∧
    ((jsGet reactExample "template").bind fun t => jsGet t "classes") =
      some (JSON.arr [JSON.str "rx-comp", JSON.str "rx-react"]) ∧
    passedCount reactExample idxExample = 8 ∧
    testCount reactExample idxExample = 8 ∧
    runTestsExit reactExample idxExample = 0 :=
  ⟨rfl, rfl, rfl, by decide, rfl, by decide⟩
